import Mathlib

set_option maxRecDepth 8000

/-!
Verification of the PhantomJS installer helpers (`lib/util.js`).

The JavaScript source is shallowly embedded: each helper becomes a pure Lean
function.  Ambient effects are made explicit:

* `process.env`, `process.platform`, `process.arch` become a `ProcessEnv` value;
* `require` of the generated metadata record, `fs.statSync` and
  `cp.execFile(path, ['--version'])` become fields of a `Sys` value, with
  `Except Unit` results standing for promise rejection / thrown errors
  (`Except.error` = the call threw or the subprocess failed);
* `hasha.fromFile(file, sha256)` becomes a function argument returning the hex
  digest or a read error;
* a kew promise that settles with a falsy value is an `Option` result of
  `none`; `.fail` handlers that return `false` make the embedded functions
  total, so "never rejects" is captured by totality of the embedding.

JavaScript string primitives (trim, replace, the generated-file syntax that
`require` evaluates, and Node's `path.dirname` / `path.resolve`) are modelled
on `List Char`.
-/

/-- A character matched by the character class `[a-zA-Z0-9]`. -/
def isAlnumChar (c : Char) : Bool :=
  ('a' ≤ c && c ≤ 'z') || ('A' ≤ c && c ≤ 'Z') || ('0' ≤ c && c ≤ '9')

/-- Models the regex test `/^[a-zA-Z0-9]*$/.test(s)`. -/
def matchesAlnumStar (s : String) : Bool :=
  s.data.all isAlnumChar

/-- Whitespace characters removed by JavaScript's `String.prototype.trim`. -/
def isJsSpace (c : Char) : Bool :=
  c == ' ' || c == '\t' || c == '\n' || c == '\r' || c == '\x0b' || c == '\x0c'

/-- `trim` on a character list: drop leading and trailing whitespace. -/
def jsTrimL (l : List Char) : List Char :=
  ((l.dropWhile isJsSpace).reverse.dropWhile isJsSpace).reverse

/-- Models `s.trim()`. -/
def jsTrim (s : String) : String :=
  ⟨jsTrimL s.data⟩

/-- `location.replace(/\\/g, '\\\\')`: double every backslash. -/
def escapeBSL : List Char → List Char
  | [] => []
  | c :: r => if c = '\\' then '\\' :: '\\' :: escapeBSL r else c :: escapeBSL r

/-- Models `s.replace(/\\/g, '\\\\')`. -/
def escapeBS (s : String) : String :=
  ⟨escapeBSL s.data⟩

/-- The character a JavaScript escape sequence `\c` denotes inside a string
literal (single-character escapes; unknown escapes denote the character
itself). -/
def unescChar (c : Char) : Char :=
  if c = 'n' then '\n'
  else if c = 't' then '\t'
  else if c = 'r' then '\r'
  else if c = 'b' then '\x08'
  else if c = 'f' then '\x0c'
  else if c = 'v' then '\x0b'
  else if c = '0' then '\x00'
  else c

/-- Evaluation of the escape sequences of a JavaScript string literal body;
the flag records whether a backslash is pending. -/
def jsUnescGo : Bool → List Char → List Char
  | _, [] => []
  | true, d :: r => unescChar d :: jsUnescGo false r
  | false, c :: r => if c = '\\' then jsUnescGo true r else c :: jsUnescGo false r

/-- Evaluation of the escape sequences of a JavaScript string literal body. -/
def jsUnescapeL (l : List Char) : List Char :=
  jsUnescGo false l

/-- Split a character list at newline characters (the lines of a file). -/
def splitLinesL : List Char → List (List Char)
  | [] => [[]]
  | c :: r =>
    if c = '\n' then [] :: splitLinesL r
    else
      match splitLinesL r with
      | [] => [[c]]
      | h :: t => (c :: h) :: t

/-- Remove a leading run of characters, or fail. -/
def stripPre : List Char → List Char → Option (List Char)
  | [], l => some l
  | _ :: _, [] => none
  | p :: ps, c :: cs => if p = c then stripPre ps cs else none

/-- The body of a well-formed string literal: the text must end in a double
quote and the body before it must contain no further double quote and no raw
line terminator — an unterminated literal, an interior unescaped quote (this
generator never escapes quotes, it only doubles backslashes) or a raw CR in
the literal is a JavaScript SyntaxError. -/
def litBody (l : List Char) : Option (List Char) :=
  match l.reverse with
  | '"' :: r =>
    if '"' ∈ r.reverse ∨ '\r' ∈ r.reverse ∨ '\n' ∈ r.reverse then none
    else some r.reverse
  | _ => none

/-- Does the first list occur as a leading run of the second? -/
def startsL : List Char → List Char → Bool
  | [], _ => true
  | _ :: _, [] => false
  | p :: ps, c :: cs => p == c && startsL ps cs

/-- Modelled from Node's `path.dirname` (posix flavour): everything before the
last separator; `.` when there is none, `/` when only the leading one. -/
def dirnameL (cs : List Char) : List Char :=
  match cs.reverse.dropWhile (· ≠ '/') with
  | [] => ['.']
  | _ :: t => if t = [] then ['/'] else t.reverse

/-- Models `path.dirname`. -/
def pathDirname (s : String) : String :=
  ⟨dirnameL s.data⟩

/-- Modelled from Node's `path.resolve(dir, s)` (posix flavour, without dot
normalisation): an absolute second argument wins, otherwise join. -/
def pathResolve (dir s : String) : String :=
  if s.data.head? = some '/' then s else dir ++ "/" ++ s

/-- The record `require(libPath)` yields for a generated `location.js`:
the three exported fields, each possibly absent. -/
structure LibModule where
  location : Option String
  platform : Option String
  arch : Option String
deriving DecidableEq

/-- The text preceding the string literal on the `location` line. -/
def locKey : List Char :=
  "module.exports.location = \"".data

/-- The text preceding the string literal on the `platform` line. -/
def platKey : List Char :=
  "module.exports.platform = \"".data

/-- The text preceding the string literal on the `arch` line. -/
def archKey : List Char :=
  "module.exports.arch = \"".data

/-- Evaluate one line of a generated `location.js`: an assignment
`module.exports.<field> = "<literal>"` sets the field to the literal's value
(escape sequences evaluated); a field line whose literal is malformed is a
SyntaxError and fails the evaluation; any other line leaves the record
unchanged. -/
def parseLineL (m : LibModule) (line : List Char) : Except Unit LibModule :=
  match stripPre locKey line with
  | some rest =>
    match litBody rest with
    | some lit => Except.ok { m with location := some ⟨jsUnescapeL lit⟩ }
    | none => Except.error ()
  | none =>
  match stripPre platKey line with
  | some rest =>
    match litBody rest with
    | some lit => Except.ok { m with platform := some ⟨jsUnescapeL lit⟩ }
    | none => Except.error ()
  | none =>
  match stripPre archKey line with
  | some rest =>
    match litBody rest with
    | some lit => Except.ok { m with arch := some ⟨jsUnescapeL lit⟩ }
    | none => Except.error ()
  | none => Except.ok m

/-- Evaluate the lines in order, stopping at the first SyntaxError. -/
def loadLines (m : LibModule) : List (List Char) → Except Unit LibModule
  | [] => Except.ok m
  | line :: rest =>
    match parseLineL m line with
    | Except.ok m2 => loadLines m2 rest
    | Except.error e => Except.error e

/-- Models Node's `require` of a generated `location.js`: evaluate the
assignment statements line by line (later assignments win); a malformed field
line makes the whole load throw, as Node's `require` does on a
SyntaxError. -/
def loadLocationFile (contents : String) : Except Unit LibModule :=
  loadLines ⟨none, none, none⟩ (splitLinesL contents.data)

/-- The ambient process state read by `getTargetPlatform` / `getTargetArch`:
`process.env` and the host's reported platform and architecture. -/
structure ProcessEnv where
  envVar : String → Option String
  platform : String
  arch : String

/-- JavaScript `a || b` on an (optional) environment-variable value: an unset
variable is `undefined` and an empty string is falsy, both fall back. -/
def jsOrElse (v : Option String) (fallback : String) : String :=
  match v with
  | some s => if s = "" then fallback else s
  | none => fallback

/-- `getTargetPlatform`: `process.env.PHANTOMJS_PLATFORM || process.platform`. -/
def getTargetPlatform (proc : ProcessEnv) : String :=
  jsOrElse (proc.envVar "PHANTOMJS_PLATFORM") proc.platform

/-- `getTargetArch`: `process.env.PHANTOMJS_ARCH || process.arch`. -/
def getTargetArch (proc : ProcessEnv) : String :=
  jsOrElse (proc.envVar "PHANTOMJS_ARCH") proc.arch

/-- `writeLocationFile`, as the text it writes: escape backslashes on win32,
emit the `location` line, and append the `platform` and `arch` lines exactly
when both strings pass the `/^[a-zA-Z0-9]*$/` test. -/
def writeLocationContents (proc : ProcessEnv) (location : String) : String :=
  let location := if getTargetPlatform proc = "win32" then escapeBS location else location
  let platform := getTargetPlatform proc
  let arch := getTargetArch proc
  let contents := "module.exports.location = \"" ++ location ++ "\"\n"
  if matchesAlnumStar platform && matchesAlnumStar arch then
    contents ++
      ("module.exports.platform = \"" ++ getTargetPlatform proc ++ "\"\n" ++
        "module.exports.arch = \"" ++ getTargetArch proc ++ "\"\n")
  else contents

/-- The fields `writeLocationFile` emits, as a record: the location value (after
win32 escaping) is always present; the platform/arch tags are present exactly
when both pass the `/^[a-zA-Z0-9]*$/` test. -/
structure InstallMetadata where
  location : String
  platform : Option String
  arch : Option String
deriving DecidableEq

/-- The record of fields `writeLocationFile` emits. -/
def writeLocationMeta (proc : ProcessEnv) (location : String) : InstallMetadata :=
  { location := if getTargetPlatform proc = "win32" then escapeBS location else location,
    platform :=
      if matchesAlnumStar (getTargetPlatform proc) && matchesAlnumStar (getTargetArch proc) then
        some (getTargetPlatform proc)
      else none,
    arch :=
      if matchesAlnumStar (getTargetPlatform proc) && matchesAlnumStar (getTargetArch proc) then
        some (getTargetArch proc)
      else none }

/-- Render an `InstallMetadata` record as the generated file text. -/
def renderMeta (m : InstallMetadata) : String :=
  match m.platform, m.arch with
  | some p, some a =>
    "module.exports.location = \"" ++ m.location ++ "\"\n" ++
      ("module.exports.platform = \"" ++ p ++ "\"\n" ++
        "module.exports.arch = \"" ++ a ++ "\"\n")
  | _, _ => "module.exports.location = \"" ++ m.location ++ "\"\n"

/-- The download spec: URL and expected SHA-256 checksum. -/
structure DownloadSpec where
  url : String
  checksum : String
deriving DecidableEq

/-- `getDownloadSpec`, with the ambient `helper.version` constant passed
explicitly.  The (platform, arch) table is transcribed from the source. -/
def getDownloadSpec (version platform arch : String) : Option DownloadSpec :=
  if platform = "linux" ∧ arch = "arm64" then
    some { url := "http://10.0.6.161/phantomjs-" ++ version ++ "-linux-aarch64.zip",
           checksum := "ea671a9c23d7a0cdc7292889e2ac2d24365f3a99d106362a727346af3bfa9017" }
  else if platform = "darwin" then
    some { url := "https://github.com/Medium/phantomjs/releases/download/v2.1.1/phantomjs-"
             ++ version ++ "-macosx.zip",
           checksum := "538cf488219ab27e309eafc629e2bcee9976990fe90b1ec334f541779150f8c1" }
  else none

/-- The host part of a URL: what stands between `http://` or `https://` and the
next slash. -/
def hostOf (url : String) : Option String :=
  match stripPre "http://".data url.data with
  | some rest => some ⟨rest.takeWhile (· ≠ '/')⟩
  | none =>
    match stripPre "https://".data url.data with
    | some rest => some ⟨rest.takeWhile (· ≠ '/')⟩
    | none => none

/-- A hexadecimal digit as written in the checksum table. -/
def isHexChar (c : Char) : Bool :=
  ('0' ≤ c && c ≤ '9') || ('a' ≤ c && c ≤ 'f')

/-- `verifyChecksum`: compare the file's SHA-256 hex digest (`hasha.fromFile`,
whose outcome is the explicit argument: digest or read error) with the expected
checksum; any failure is absorbed into `false` by the `.fail` handler. -/
def verifyChecksum (hashaFromFile : String → Except Unit String)
    (fileName checksum : String) : Bool :=
  match hashaFromFile fileName with
  | Except.ok hash => checksum == hash
  | Except.error _ => false

/-- The ambient world of the probe: process state, the `helper.version`
constant, `require`, `fs.statSync` (`true` = the path exists, `false` = the
call throws) and `cp.execFile path --version` (stdout, or a spawn/exit
failure). -/
structure Sys where
  proc : ProcessEnv
  helperVersion : String
  requireModule : String → Except Unit LibModule
  statSyncOk : String → Bool
  execFileOut : String → Except Unit String

/-- `checkPhantomjsVersion`: run the binary with `--version`, trim stdout and
compare with `helper.version`; any subprocess failure yields `false`. -/
def checkPhantomjsVersion (sys : Sys) (phantomPath : String) : Bool :=
  match sys.execFileOut phantomPath with
  | Except.ok stdout =>
    if sys.helperVersion = jsTrim stdout then true else false
  | Except.error _ => false

/-- `findValidPhantomJsBinary`: load the record, require a truthy `location`
and platform/arch equal to the current target, resolve the location against
the record's directory, require the file to exist (`statSync`), then delegate
to the version check.  Every thrown error and every falsy outcome collapses to
`none` (the `.fail` handler), and the source's `resolvedLocation` local is
inlined. -/
def findValidPhantomJsBinary (sys : Sys) (libPath : String) : Option String :=
  match sys.requireModule libPath with
  | Except.error _ => none
  | Except.ok libModule =>
    match libModule.location with
    | none => none
    | some loc =>
      if loc ≠ "" ∧ libModule.platform = some (getTargetPlatform sys.proc)
          ∧ libModule.arch = some (getTargetArch sys.proc) then
        if sys.statSyncOk (pathResolve (pathDirname libPath) loc) then
          if checkPhantomjsVersion sys (pathResolve (pathDirname libPath) loc) then
            some (pathResolve (pathDirname libPath) loc)
          else none
        else none
      else none

/-! ## Helper lemmas -/

theorem strData_append (a b : String) : (a ++ b).data = a.data ++ b.data := rfl

theorem strMk_data (s : String) : (⟨s.data⟩ : String) = s := rfl

/-! ## Claim C1 -/

/-- C1: `verifyChecksum` resolves to `true` iff the file's SHA-256 hex digest
equals the expected checksum string; a read failure resolves to `false`.  The
embedding is a total `Bool`-valued function, so the promise never rejects. -/
theorem C1_verifyChecksum_iff (hashaFromFile : String → Except Unit String)
    (fileName checksum : String) :
    verifyChecksum hashaFromFile fileName checksum = true ↔
      hashaFromFile fileName = Except.ok checksum := by
  unfold verifyChecksum
  cases h : hashaFromFile fileName with
  | ok d =>
    show ((checksum == d) = true) ↔ (Except.ok d = Except.ok checksum)
    constructor
    · intro hb
      rw [eq_of_beq hb]
    · intro he
      injection he with he2
      rw [he2]
      exact beq_self_eq_true checksum
  | error e =>
    show (false = true) ↔ (Except.error e = Except.ok checksum)
    simp

/-! ## Claim C2 -/

/-- C2: for (linux, arm64) the download URL has plain `http` scheme (not
`https`) and host `10.0.6.161`, while the darwin entry is an `https`
GitHub URL. -/
theorem C2_linux_arm64_http_private (version : String) :
    ∃ s : DownloadSpec, getDownloadSpec version "linux" "arm64" = some s ∧
      startsL "http://".data s.url.data = true ∧
      startsL "https://".data s.url.data = false ∧
      hostOf s.url = some "10.0.6.161" ∧
      ∃ d : DownloadSpec, getDownloadSpec version "darwin" "x64" = some d ∧
        startsL "https://".data d.url.data = true ∧
        hostOf d.url = some "github.com" :=
  ⟨_, rfl, rfl, rfl, rfl, _, rfl, rfl, rfl⟩

/-! ## Claim C3 -/

/-- C3: every entry of the supported download table has a non-empty URL and a
checksum that is exactly 64 hexadecimal characters. -/
theorem C3_table_checksums (version platform arch : String) (s : DownloadSpec)
    (h : getDownloadSpec version platform arch = some s) :
    s.url ≠ "" ∧ s.checksum.length = 64 ∧ s.checksum.data.all isHexChar = true := by
  unfold getDownloadSpec at h
  split at h
  · cases h
    refine ⟨?_, by rfl, by rfl⟩
    intro hurl
    exact absurd (congrArg String.data hurl) (by simp [strData_append])
  · split at h
    · cases h
      refine ⟨?_, by rfl, by rfl⟩
      intro hurl
      exact absurd (congrArg String.data hurl) (by simp [strData_append])
    · exact absurd h (by simp)

theorem C3_witness :
    ∃ s : DownloadSpec, getDownloadSpec "2.1.1" "darwin" "x64" = some s ∧
      (s.url ≠ "" ∧ s.checksum.length = 64 ∧ s.checksum.data.all isHexChar = true) :=
  ⟨_, rfl, C3_table_checksums "2.1.1" "darwin" "x64" _ rfl⟩

/-! ## Claim C4 -/

/-- C4: a (platform, arch) pair outside the table — platform not darwin and the
pair not (linux, arm64) — yields no download spec. -/
theorem C4_unsupported_null (version platform arch : String)
    (hd : platform ≠ "darwin") (hl : ¬(platform = "linux" ∧ arch = "arm64")) :
    getDownloadSpec version platform arch = none := by
  unfold getDownloadSpec
  rw [if_neg hl, if_neg hd]

theorem C4_witness :
    ("win32" : String) ≠ "darwin" ∧ ¬(("win32" : String) = "linux" ∧ ("x64" : String) = "arm64") ∧
      getDownloadSpec "2.1.1" "win32" "x64" = none :=
  ⟨by decide, by decide, C4_unsupported_null "2.1.1" "win32" "x64" (by decide) (by decide)⟩

/-! ## Claim C5 -/

/-- A process state that sets the environment variable named by the claim
(`TARGET_PLATFORM`) but not the one the source reads. -/
def procCX : ProcessEnv :=
  { envVar := fun k => if k = "TARGET_PLATFORM" then some "override" else none,
    platform := "linux",
    arch := "x64" }

/-- C5, counterexample: with `TARGET_PLATFORM` set to `"override"` (and nothing
else set), `getTargetPlatform` ignores it and returns the host platform — the
source reads `PHANTOMJS_PLATFORM`, not `TARGET_PLATFORM`. -/
theorem C5_counterexample :
    procCX.envVar "TARGET_PLATFORM" = some "override" ∧
      getTargetPlatform procCX = "linux" ∧ getTargetPlatform procCX ≠ "override" :=
  ⟨rfl, rfl, by decide⟩

/-- C5, amended: `getTargetPlatform` returns the value of the
`PHANTOMJS_PLATFORM` environment variable when it is set to a non-empty string
and otherwise the host's reported platform (an empty value, being falsy, also
falls back); `getTargetArch` behaves the same with `PHANTOMJS_ARCH` and the
host architecture. -/
theorem C5_env_override (proc : ProcessEnv) (v : String) :
    (proc.envVar "PHANTOMJS_PLATFORM" = some v → v ≠ "" → getTargetPlatform proc = v) ∧
    (proc.envVar "PHANTOMJS_PLATFORM" = none → getTargetPlatform proc = proc.platform) ∧
    (proc.envVar "PHANTOMJS_PLATFORM" = some "" → getTargetPlatform proc = proc.platform) ∧
    (proc.envVar "PHANTOMJS_ARCH" = some v → v ≠ "" → getTargetArch proc = v) ∧
    (proc.envVar "PHANTOMJS_ARCH" = none → getTargetArch proc = proc.arch) ∧
    (proc.envVar "PHANTOMJS_ARCH" = some "" → getTargetArch proc = proc.arch) := by
  refine ⟨fun h hv => ?_, fun h => ?_, fun h => ?_, fun h hv => ?_, fun h => ?_, fun h => ?_⟩
  · unfold getTargetPlatform
    rw [h]
    show (if v = "" then proc.platform else v) = v
    rw [if_neg hv]
  · unfold getTargetPlatform
    rw [h]
    rfl
  · unfold getTargetPlatform
    rw [h]
    show (if ("" : String) = "" then proc.platform else "") = proc.platform
    rw [if_pos rfl]
  · unfold getTargetArch
    rw [h]
    show (if v = "" then proc.arch else v) = v
    rw [if_neg hv]
  · unfold getTargetArch
    rw [h]
    rfl
  · unfold getTargetArch
    rw [h]
    show (if ("" : String) = "" then proc.arch else "") = proc.arch
    rw [if_pos rfl]

/-- A process state with both override variables set. -/
def procW : ProcessEnv :=
  { envVar := fun k =>
      if k = "PHANTOMJS_PLATFORM" then some "sunos"
      else if k = "PHANTOMJS_ARCH" then some "ia32"
      else none,
    platform := "linux",
    arch := "x64" }

theorem C5_witness :
    procW.envVar "PHANTOMJS_PLATFORM" = some "sunos" ∧ ("sunos" : String) ≠ "" ∧
      getTargetPlatform procW = "sunos" :=
  ⟨rfl, by decide, (C5_env_override procW "sunos").1 rfl (by decide)⟩

/-! ## Claim C6 -/

/-- C6: a loaded record whose platform or arch field differs from the current
target yields a falsy probe result, whatever `statSync` (file existence) and
the version check would say. -/
theorem C6_mismatch_negative (sys : Sys) (libPath : String) (m : LibModule)
    (hload : sys.requireModule libPath = Except.ok m)
    (hmis : m.platform ≠ some (getTargetPlatform sys.proc) ∨
      m.arch ≠ some (getTargetArch sys.proc)) :
    findValidPhantomJsBinary sys libPath = none := by
  cases hm : m.location with
  | none => simp [findValidPhantomJsBinary, hload, hm]
  | some loc =>
    have hcond : ¬(loc ≠ "" ∧ m.platform = some (getTargetPlatform sys.proc)
        ∧ m.arch = some (getTargetArch sys.proc)) := by
      rintro ⟨-, hp, ha⟩
      rcases hmis with h | h
      · exact h hp
      · exact h ha
    simp [findValidPhantomJsBinary, hload, hm, hcond]

/-- A record for the darwin target. -/
def recC6 : LibModule :=
  { location := some "/bin/phantomjs", platform := some "darwin", arch := some "x64" }

/-- A world whose record mismatches the target platform while the recorded file
exists and would report the right version. -/
def sysC6 : Sys :=
  { proc := { envVar := fun _ => none, platform := "linux", arch := "x64" },
    helperVersion := "2.1.1",
    requireModule := fun _ => Except.ok recC6,
    statSyncOk := fun _ => true,
    execFileOut := fun _ => Except.ok "2.1.1\n" }

theorem C6_witness :
    sysC6.requireModule "/lib/location.js" = Except.ok recC6 ∧
      (recC6.platform ≠ some (getTargetPlatform sysC6.proc) ∨
        recC6.arch ≠ some (getTargetArch sysC6.proc)) ∧
      findValidPhantomJsBinary sysC6 "/lib/location.js" = none :=
  ⟨rfl, Or.inl (by decide),
    C6_mismatch_negative sysC6 "/lib/location.js" recC6 rfl (Or.inl (by decide))⟩

/-! ## Claim C7 -/

/-- C7: for every world and every record path the probe settles: the result is
either falsy (`none` — covering load errors, malformed records, missing files,
mismatches and version failures) or the resolved path of the loaded record's
location.  Totality of the embedding is the absence of rejection. -/
theorem C7_settles_falsy_or_resolved (sys : Sys) (libPath : String) :
    findValidPhantomJsBinary sys libPath = none ∨
      ∃ m loc, sys.requireModule libPath = Except.ok m ∧ m.location = some loc ∧
        findValidPhantomJsBinary sys libPath = some (pathResolve (pathDirname libPath) loc) := by
  cases h : sys.requireModule libPath with
  | error e => exact Or.inl (by simp [findValidPhantomJsBinary, h])
  | ok m =>
    cases hm : m.location with
    | none => exact Or.inl (by simp [findValidPhantomJsBinary, h, hm])
    | some loc =>
      by_cases hcond : loc ≠ "" ∧ m.platform = some (getTargetPlatform sys.proc)
          ∧ m.arch = some (getTargetArch sys.proc)
      · by_cases hstat : sys.statSyncOk (pathResolve (pathDirname libPath) loc) = true
        · by_cases hver : checkPhantomjsVersion sys (pathResolve (pathDirname libPath) loc) = true
          · exact Or.inr ⟨m, loc, rfl, hm,
              by simp [findValidPhantomJsBinary, h, hm, hcond, hstat, hver]⟩
          · exact Or.inl (by simp [findValidPhantomJsBinary, h, hm, hcond, hstat, hver])
        · exact Or.inl (by simp [findValidPhantomJsBinary, h, hm, hcond, hstat])
      · exact Or.inl (by simp [findValidPhantomJsBinary, h, hm, hcond])

/-! ## Claim C8 -/

/-- C8: the version check is `true` iff the subprocess succeeded and its
trimmed stdout equals the expected version constant; every failure is `false`,
and the embedding is total (the promise never rejects). -/
theorem C8_version_check_iff (sys : Sys) (phantomPath : String) :
    checkPhantomjsVersion sys phantomPath = true ↔
      ∃ stdout, sys.execFileOut phantomPath = Except.ok stdout ∧
        jsTrim stdout = sys.helperVersion := by
  unfold checkPhantomjsVersion
  cases h : sys.execFileOut phantomPath with
  | ok out =>
    show (if sys.helperVersion = jsTrim out then true else false) = true ↔ _
    constructor
    · intro ht
      refine ⟨out, rfl, ?_⟩
      by_cases he : sys.helperVersion = jsTrim out
      · exact he.symm
      · rw [if_neg he] at ht
        exact Bool.noConfusion ht
    · rintro ⟨o, ho, htr⟩
      injection ho with ho2
      rw [ho2, htr, if_pos rfl]
  | error e =>
    show false = true ↔ _
    constructor
    · intro ht
      exact Bool.noConfusion ht
    · rintro ⟨o, ho, -⟩
      exact Except.noConfusion ho

/-! ## Helper lemmas for the write / load round trip -/

theorem escapeBSL_cons_bs (r : List Char) :
    escapeBSL ('\\' :: r) = '\\' :: '\\' :: escapeBSL r := rfl

theorem escapeBSL_cons {c : Char} (hc : c ≠ '\\') (r : List Char) :
    escapeBSL (c :: r) = c :: escapeBSL r := by
  show (if c = '\\' then '\\' :: '\\' :: escapeBSL r else c :: escapeBSL r) = c :: escapeBSL r
  rw [if_neg hc]

theorem jsUnescapeL_bs (d : Char) (r2 : List Char) :
    jsUnescapeL ('\\' :: d :: r2) = unescChar d :: jsUnescapeL r2 := rfl

theorem jsUnescapeL_cons {c : Char} (hc : c ≠ '\\') (r : List Char) :
    jsUnescapeL (c :: r) = c :: jsUnescapeL r := by
  show (if c = '\\' then jsUnescGo true r else c :: jsUnescGo false r) = c :: jsUnescGo false r
  rw [if_neg hc]

/-- Unescaping inverts backslash doubling: the win32 escape round-trips. -/
theorem jsUnescapeL_escapeBSL (x : List Char) : jsUnescapeL (escapeBSL x) = x := by
  induction x with
  | nil => rfl
  | cons c cs ih =>
    by_cases hc : c = '\\'
    · subst hc
      rw [escapeBSL_cons_bs, jsUnescapeL_bs, ih]
      have hu : unescChar '\\' = '\\' := by decide
      rw [hu]
    · rw [escapeBSL_cons hc, jsUnescapeL_cons hc, ih]

/-- A backslash-free literal body unescapes to itself. -/
theorem jsUnescapeL_id (x : List Char) (h : '\\' ∉ x) : jsUnescapeL x = x := by
  induction x with
  | nil => rfl
  | cons c cs ih =>
    have hc : c ≠ '\\' := fun hh => h (hh ▸ List.mem_cons_self c cs)
    have hcs : '\\' ∉ cs := fun hh => h (List.mem_cons_of_mem c hh)
    rw [jsUnescapeL_cons hc, ih hcs]

/-- Escaping introduces no character other than the backslash. -/
theorem mem_of_mem_escapeBSL {c : Char} (hc : c ≠ '\\') (x : List Char)
    (h : c ∈ escapeBSL x) : c ∈ x := by
  induction x with
  | nil => exact absurd h (by simp [escapeBSL])
  | cons d ds ih =>
    by_cases hd : d = '\\'
    · subst hd
      rw [escapeBSL_cons_bs] at h
      rcases List.mem_cons.mp h with h1 | h1
      · exact absurd h1 hc
      · rcases List.mem_cons.mp h1 with h2 | h2
        · exact absurd h2 hc
        · exact List.mem_cons_of_mem _ (ih h2)
    · rw [escapeBSL_cons hd] at h
      rcases List.mem_cons.mp h with h1 | h1
      · exact h1 ▸ List.mem_cons_self d ds
      · exact List.mem_cons_of_mem _ (ih h1)

/-- A string passing the alphanumeric test contains no character outside the
class. -/
theorem not_mem_of_alnum (s : String) (h : matchesAlnumStar s = true) {c : Char}
    (hc : isAlnumChar c = false) : c ∉ s.data := by
  intro hm
  have h2 := List.all_eq_true.mp h c hm
  rw [hc] at h2
  exact Bool.noConfusion h2

theorem stripPre_self_append (p l : List Char) : stripPre p (p ++ l) = some l := by
  induction p with
  | nil => rfl
  | cons c cs ih => simp [stripPre, ih]

theorem litBody_append (x : List Char) (hq : '"' ∉ x) (hcr : '\r' ∉ x)
    (hnl : '\n' ∉ x) : litBody (x ++ ['"']) = some x := by
  simp [litBody, List.reverse_append, List.reverse_reverse, hq, hcr, hnl]

theorem loadLines_cons_ok (m m2 : LibModule) (line : List Char) (rest : List (List Char))
    (h : parseLineL m line = Except.ok m2) :
    loadLines m (line :: rest) = loadLines m2 rest := by
  show (match parseLineL m line with
    | Except.ok m2 => loadLines m2 rest
    | Except.error e => Except.error e) = loadLines m2 rest
  rw [h]

theorem splitLinesL_append (a rest : List Char) (ha : '\n' ∉ a) :
    splitLinesL (a ++ '\n' :: rest) = a :: splitLinesL rest := by
  induction a with
  | nil => simp [splitLinesL]
  | cons c cs ih =>
    have hc : c ≠ '\n' := fun h => ha (h ▸ List.mem_cons_self c cs)
    have hcs : '\n' ∉ cs := fun h => ha (List.mem_cons_of_mem c h)
    simp [splitLinesL, hc, ih hcs]

theorem parseLineL_loc (m : LibModule) (x : List Char) (hq : '"' ∉ x) (hcr : '\r' ∉ x)
    (hnl : '\n' ∉ x) :
    parseLineL m (locKey ++ (x ++ ['"']))
      = Except.ok { m with location := some ⟨jsUnescapeL x⟩ } := by
  simp [parseLineL, stripPre_self_append, litBody_append x hq hcr hnl]

theorem parseLineL_plat (m : LibModule) (x : List Char) (hq : '"' ∉ x) (hcr : '\r' ∉ x)
    (hnl : '\n' ∉ x) :
    parseLineL m (platKey ++ (x ++ ['"']))
      = Except.ok { m with platform := some ⟨jsUnescapeL x⟩ } := by
  have h1 : stripPre locKey (platKey ++ (x ++ ['"'])) = none := rfl
  simp [parseLineL, h1, stripPre_self_append, litBody_append x hq hcr hnl]

theorem parseLineL_arch (m : LibModule) (x : List Char) (hq : '"' ∉ x) (hcr : '\r' ∉ x)
    (hnl : '\n' ∉ x) :
    parseLineL m (archKey ++ (x ++ ['"']))
      = Except.ok { m with arch := some ⟨jsUnescapeL x⟩ } := by
  have h1 : stripPre locKey (archKey ++ (x ++ ['"'])) = none := rfl
  have h2 : stripPre platKey (archKey ++ (x ++ ['"'])) = none := rfl
  simp [parseLineL, h1, h2, stripPre_self_append, litBody_append x hq hcr hnl]

/-- Writing under a target whose platform and arch tags pass the alphanumeric
test, for a location free of quotes and line terminators (so the generated
literals are well formed), produces a record that loads back to exactly those
three fields, with the location unescaped to the original string. -/
theorem loadLocationFile_write (proc : ProcessEnv) (location : String)
    (hplat : matchesAlnumStar (getTargetPlatform proc) = true)
    (harch : matchesAlnumStar (getTargetArch proc) = true)
    (hq : '"' ∉ location.data) (hcr : '\r' ∉ location.data) (hnl : '\n' ∉ location.data)
    (hbs : getTargetPlatform proc = "win32" ∨ '\\' ∉ location.data) :
    loadLocationFile (writeLocationContents proc location) =
      Except.ok
        { location := some location, platform := some (getTargetPlatform proc),
          arch := some (getTargetArch proc) } := by
  have hdata : (writeLocationContents proc location).data =
      (locKey ++ ((if getTargetPlatform proc = "win32" then escapeBS location else location).data
          ++ ['"'])) ++ '\n' ::
        ((platKey ++ ((getTargetPlatform proc).data ++ ['"'])) ++ '\n' ::
          ((archKey ++ ((getTargetArch proc).data ++ ['"'])) ++ '\n' :: [])) := by
    simp only [writeLocationContents, hplat, harch, Bool.and_self, if_true]
    simp only [strData_append]
    simp [locKey, platKey, archKey, List.append_assoc]
  have hnl2 : '\n' ∉ (if getTargetPlatform proc = "win32" then escapeBS location
      else location).data := by
    by_cases hw : getTargetPlatform proc = "win32"
    · rw [if_pos hw]
      intro hm
      exact hnl (mem_of_mem_escapeBSL (by decide) location.data hm)
    · rw [if_neg hw]
      exact hnl
  have hq2 : '"' ∉ (if getTargetPlatform proc = "win32" then escapeBS location
      else location).data := by
    by_cases hw : getTargetPlatform proc = "win32"
    · rw [if_pos hw]
      intro hm
      exact hq (mem_of_mem_escapeBSL (by decide) location.data hm)
    · rw [if_neg hw]
      exact hq
  have hcr2 : '\r' ∉ (if getTargetPlatform proc = "win32" then escapeBS location
      else location).data := by
    by_cases hw : getTargetPlatform proc = "win32"
    · rw [if_pos hw]
      intro hm
      exact hcr (mem_of_mem_escapeBSL (by decide) location.data hm)
    · rw [if_neg hw]
      exact hcr
  have h1 : '\n' ∉ locKey ++ ((if getTargetPlatform proc = "win32" then escapeBS location
      else location).data ++ ['"']) := by
    intro hm
    rcases List.mem_append.mp hm with hm | hm
    · exact absurd hm (by decide)
    · rcases List.mem_append.mp hm with hm | hm
      · exact hnl2 hm
      · exact absurd hm (by decide)
  have hplatbs : '\\' ∉ (getTargetPlatform proc).data := not_mem_of_alnum _ hplat (by decide)
  have hplatnl : '\n' ∉ (getTargetPlatform proc).data := not_mem_of_alnum _ hplat (by decide)
  have hplatq : '"' ∉ (getTargetPlatform proc).data := not_mem_of_alnum _ hplat (by decide)
  have hplatcr : '\r' ∉ (getTargetPlatform proc).data := not_mem_of_alnum _ hplat (by decide)
  have harchbs : '\\' ∉ (getTargetArch proc).data := not_mem_of_alnum _ harch (by decide)
  have harchnl : '\n' ∉ (getTargetArch proc).data := not_mem_of_alnum _ harch (by decide)
  have harchq : '"' ∉ (getTargetArch proc).data := not_mem_of_alnum _ harch (by decide)
  have harchcr : '\r' ∉ (getTargetArch proc).data := not_mem_of_alnum _ harch (by decide)
  have h2 : '\n' ∉ platKey ++ ((getTargetPlatform proc).data ++ ['"']) := by
    intro hm
    rcases List.mem_append.mp hm with hm | hm
    · exact absurd hm (by decide)
    · rcases List.mem_append.mp hm with hm | hm
      · exact hplatnl hm
      · exact absurd hm (by decide)
  have h3 : '\n' ∉ archKey ++ ((getTargetArch proc).data ++ ['"']) := by
    intro hm
    rcases List.mem_append.mp hm with hm | hm
    · exact absurd hm (by decide)
    · rcases List.mem_append.mp hm with hm | hm
      · exact harchnl hm
      · exact absurd hm (by decide)
  have hle : (⟨jsUnescapeL ((if getTargetPlatform proc = "win32" then escapeBS location
      else location).data)⟩ : String) = location := by
    by_cases hw : getTargetPlatform proc = "win32"
    · rw [if_pos hw]
      show (⟨jsUnescapeL (escapeBSL location.data)⟩ : String) = location
      rw [jsUnescapeL_escapeBSL]
    · rw [if_neg hw]
      rcases hbs with hb | hb
      · exact absurd hb hw
      · rw [jsUnescapeL_id _ hb]
  have hpe : (⟨jsUnescapeL (getTargetPlatform proc).data⟩ : String) = getTargetPlatform proc := by
    rw [jsUnescapeL_id _ hplatbs]
  have hae : (⟨jsUnescapeL (getTargetArch proc).data⟩ : String) = getTargetArch proc := by
    rw [jsUnescapeL_id _ harchbs]
  have hnil : ∀ m : LibModule, parseLineL m [] = Except.ok m := fun m => rfl
  unfold loadLocationFile
  rw [hdata, splitLinesL_append _ _ h1, splitLinesL_append _ _ h2, splitLinesL_append _ _ h3]
  simp only [splitLinesL]
  rw [loadLines_cons_ok _ _ _ _ (parseLineL_loc _ _ hq2 hcr2 hnl2),
    loadLines_cons_ok _ _ _ _ (parseLineL_plat _ _ hplatq hplatcr hplatnl),
    loadLines_cons_ok _ _ _ _ (parseLineL_arch _ _ harchq harchcr harchnl),
    loadLines_cons_ok _ _ _ _ (hnil _)]
  simp only [loadLines]
  rw [hle, hpe, hae]

/-! ## Claim C9 -/

/-- A process state with no environment overrides: the target is the host
platform and architecture. -/
def procOf (platform arch : String) : ProcessEnv :=
  { envVar := fun _ => none, platform := platform, arch := arch }

/-- The world after `writeLocationFile` ran: `require` of the written record
is whatever evaluating the written text yields (including a SyntaxError for a
malformed literal), the recorded binary exists, and running it prints the
expected version. -/
def sysOf (platform arch location libPath version : String) : Sys :=
  { proc := procOf platform arch,
    helperVersion := version,
    requireModule := fun p =>
      if p = libPath then
        loadLocationFile (writeLocationContents (procOf platform arch) location)
      else Except.error (),
    statSyncOk := fun _ => true,
    execFileOut := fun _ => Except.ok version }

/-- C9: round trip — writing a record for a valid location (no quote, no line
terminator, backslashes only under win32) under the current target and probing
it yields the resolved path of that same location; in particular the written
record loads back to the original unescaped location string, also under a
win32 target where the written form has its backslashes doubled. -/
theorem C9_write_then_probe (platform arch location libPath version : String)
    (hplat : matchesAlnumStar platform = true) (harch : matchesAlnumStar arch = true)
    (hne : location ≠ "") (hq : '"' ∉ location.data) (hcr : '\r' ∉ location.data)
    (hnl : '\n' ∉ location.data)
    (hbs : platform = "win32" ∨ '\\' ∉ location.data)
    (hver : jsTrim version = version) :
    loadLocationFile (writeLocationContents (procOf platform arch) location)
        = Except.ok
            { location := some location, platform := some platform,
              arch := some arch } ∧
      findValidPhantomJsBinary (sysOf platform arch location libPath version) libPath
        = some (pathResolve (pathDirname libPath) location) := by
  have hload := loadLocationFile_write (procOf platform arch) location hplat harch hq hcr hnl hbs
  have hchk : checkPhantomjsVersion (sysOf platform arch location libPath version)
      (pathResolve (pathDirname libPath) location) = true := by
    unfold checkPhantomjsVersion
    show (if version = jsTrim version then true else false) = true
    rw [hver, if_pos rfl]
  have hreq : (sysOf platform arch location libPath version).requireModule libPath
      = Except.ok
          { location := some location, platform := some platform, arch := some arch } := by
    show (if libPath = libPath then loadLocationFile (writeLocationContents
        (procOf platform arch) location) else Except.error ()) = _
    rw [if_pos rfl, hload]
    rfl
  have hgp : getTargetPlatform (procOf platform arch) = platform := rfl
  have hga : getTargetArch (procOf platform arch) = arch := rfl
  have hss : ∀ r, (sysOf platform arch location libPath version).statSyncOk r = true :=
    fun _ => rfl
  constructor
  · exact hload
  · simp [findValidPhantomJsBinary, hreq, hgp, hga, hne, hss, hchk]
    exact ⟨rfl, rfl⟩

theorem C9_witness :
    matchesAlnumStar "win32" = true ∧ matchesAlnumStar "x64" = true ∧
      ("C:\\bin\\phantomjs.exe" : String) ≠ "" ∧
      '"' ∉ ("C:\\bin\\phantomjs.exe" : String).data ∧
      '\r' ∉ ("C:\\bin\\phantomjs.exe" : String).data ∧
      jsTrim "2.1.1" = "2.1.1" ∧
      loadLocationFile (writeLocationContents (procOf "win32" "x64")
          "C:\\bin\\phantomjs.exe")
        = Except.ok
            { location := some "C:\\bin\\phantomjs.exe", platform := some "win32",
              arch := some "x64" } ∧
      findValidPhantomJsBinary
          (sysOf "win32" "x64" "C:\\bin\\phantomjs.exe" "/lib/location.js" "2.1.1")
          "/lib/location.js"
        = some (pathResolve (pathDirname "/lib/location.js") "C:\\bin\\phantomjs.exe") :=
  ⟨by decide, by decide, by decide, by decide, by decide, by decide,
    (C9_write_then_probe "win32" "x64" "C:\\bin\\phantomjs.exe" "/lib/location.js" "2.1.1"
      (by decide) (by decide) (by decide) (by decide) (by decide) (by decide)
      (Or.inl rfl) (by decide)).1,
    (C9_write_then_probe "win32" "x64" "C:\\bin\\phantomjs.exe" "/lib/location.js" "2.1.1"
      (by decide) (by decide) (by decide) (by decide) (by decide) (by decide)
      (Or.inl rfl) (by decide)).2⟩

/-! ## Claim C10 -/

/-- A failed `Bool` `all` exhibits a witness element. -/
theorem all_false_exists {p : Char → Bool} (l : List Char) (h : l.all p = false) :
    ∃ c ∈ l, p c = false := by
  induction l with
  | nil => exact absurd h (by simp)
  | cons c cs ih =>
    cases hpc : p c with
    | false => exact ⟨c, List.mem_cons_self c cs, hpc⟩
    | true =>
      rw [List.all_cons, hpc, Bool.true_and] at h
      obtain ⟨d, hd, hdp⟩ := ih h
      exact ⟨d, List.mem_cons_of_mem _ hd, hdp⟩

/-- C10: the written text is the rendering of a record whose platform and arch
fields are both omitted exactly when either target string has a character
outside `[a-zA-Z0-9]`, and whose location field is always present (the escaped
location). -/
theorem C10_field_omission (proc : ProcessEnv) (location : String) :
    writeLocationContents proc location = renderMeta (writeLocationMeta proc location) ∧
    ((writeLocationMeta proc location).platform = none ∧
        (writeLocationMeta proc location).arch = none ↔
      (∃ c ∈ (getTargetPlatform proc).data, isAlnumChar c = false) ∨
        (∃ c ∈ (getTargetArch proc).data, isAlnumChar c = false)) ∧
    (writeLocationMeta proc location).location =
      (if getTargetPlatform proc = "win32" then escapeBS location else location) := by
  cases hb : (matchesAlnumStar (getTargetPlatform proc)
      && matchesAlnumStar (getTargetArch proc)) with
  | true =>
    obtain ⟨hp, ha⟩ := Bool.and_eq_true_iff.mp hb
    refine ⟨?_, ?_, rfl⟩
    · simp [writeLocationContents, writeLocationMeta, renderMeta, hb]
    · constructor
      · rintro ⟨h1, -⟩
        rw [writeLocationMeta] at h1
        simp only [hb, if_true] at h1
        exact Option.noConfusion h1
      · rintro (⟨c, hc, hbad⟩ | ⟨c, hc, hbad⟩)
        · have ht := List.all_eq_true.mp hp c hc
          rw [hbad] at ht
          exact Bool.noConfusion ht
        · have ht := List.all_eq_true.mp ha c hc
          rw [hbad] at ht
          exact Bool.noConfusion ht
  | false =>
    have hsplit : matchesAlnumStar (getTargetPlatform proc) = false ∨
        matchesAlnumStar (getTargetArch proc) = false := by
      cases hp : matchesAlnumStar (getTargetPlatform proc) with
      | false => exact Or.inl rfl
      | true =>
        rw [hp, Bool.true_and] at hb
        exact Or.inr hb
    refine ⟨?_, ?_, rfl⟩
    · simp [writeLocationContents, writeLocationMeta, renderMeta, hb]
    · constructor
      · rintro -
        rcases hsplit with hf | hf
        · exact Or.inl (all_false_exists _ hf)
        · exact Or.inr (all_false_exists _ hf)
      · rintro -
        constructor
        · rw [writeLocationMeta]
          simp only [hb]
          rfl
        · rw [writeLocationMeta]
          simp only [hb]
          rfl
